import Mathlib

/-!
Verification of the orchestration core of `optimize-images.js` (imgoptim).

The JavaScript source is shallowly embedded: pure decision logic (path
classification, validation, transform planning) is translated to Lean
functions, and the effectful parts (filesystem, the `sharp` raster codec,
the `svgo` vector optimizer) are abstracted as explicit per-file outcome
environments, so that the accounting loop and the orchestration control
flow become pure state-passing functions.
-/

namespace ImgOptim

/-! ## JavaScript value model

Commander-parsed option values are either numbers (possibly `NaN`, the
result of `parseInt` on a non-numeric string) or strings / booleans.
-/

/-- A JavaScript number as produced by `parseInt`: an integer or `NaN`. -/
inductive JSNumber where
  | nan : JSNumber
  | int (n : Int) : JSNumber
deriving DecidableEq, Repr

/-- JavaScript `<` on numbers: any comparison with `NaN` is `false`. -/
def jsLt : JSNumber → JSNumber → Bool
  | JSNumber.int a, JSNumber.int b => a < b
  | _, _ => false

/-- A JavaScript value that is either a string or a boolean; the `--aspect`
option value is compared with `!==` against both `"scale"`/`"crop"` and the
boolean literal `false`, so both shapes must be representable.  Strict
equality `===` between a string and a boolean is always `false`, which the
derived decidable equality on this type reproduces. -/
inductive JSVal where
  | str (s : String) : JSVal
  | bool (b : Bool) : JSVal
deriving DecidableEq, Repr

/-- JavaScript truthiness of the `width`/`height` option slot:
`null` (absent) is falsy, `NaN` is falsy, `0` is falsy, any other number
is truthy.  Models the `if (width || height)` test. -/
def jsTruthyNum : Option JSNumber → Bool
  | none => false
  | some JSNumber.nan => false
  | some (JSNumber.int n) => n != 0

/-- Numeric value of a digit character. -/
def digitsToInt (ds : List Char) : Int :=
  ds.foldl (fun acc c => acc * 10 + ((c.toNat : Int) - 48)) 0

/-- Consume a decimal digit prefix; no digits at all yields `NaN`. -/
def parseDigits (sign : Int) (cs : List Char) : JSNumber :=
  let ds := cs.takeWhile Char.isDigit
  if ds.isEmpty then JSNumber.nan else JSNumber.int (sign * digitsToInt ds)

/-- Model of JavaScript `parseInt(s, 10)` (the `--quality` / `--width` /
`--height` coercion functions in the `program.option` declarations): skip
leading whitespace, read an optional sign, then the longest decimal digit
prefix; if no digit is found the result is `NaN`. -/
def jsParseInt (s : String) : JSNumber :=
  let cs := s.data.dropWhile (fun c => c == ' ' || c == '\t' || c == '\n' || c == '\r')
  match cs with
  | '-' :: rest => parseDigits (-1) rest
  | '+' :: rest => parseDigits 1 rest
  | rest => parseDigits 1 rest

/-- Line 76, `parseInt(qualityRaw, 10)` applied to a value that is already
a number (commander already coerced the CLI string): JavaScript stringifies
the number and re-parses it, which is the identity on integers in the
relevant range and maps `NaN` back to `NaN`. -/
def jsParseIntNum (n : JSNumber) : JSNumber := n

/-! ## Path classification (PathClassifier)

Models `path.extname(name).toLowerCase()` and the extension membership
test of `findImages` (line 49).
-/

/-- Lower-case every character of a string (`String.prototype.toLowerCase`
restricted to the ASCII names we model). -/
def myToLower (s : String) : String := String.mk (s.data.map Char.toLower)

/-- Suffix of a name from its last `'.'` (helper for `extname`); a name
with no dot has no extension. -/
def extOf : List Char → String
  | [] => ""
  | '.' :: rest => if rest.contains '.' then extOf rest else String.mk ('.' :: rest)
  | _ :: rest => extOf rest

/-- Model of Node's `path.extname` on a bare file name: the substring from
the last `'.'` to the end, except that a dot at position 0 (hidden files
such as `.gitignore`) does not start an extension. -/
def extname (s : String) : String :=
  match s.data with
  | '.' :: rest => extOf rest
  | cs => extOf cs

/-- The extension list of `findImages`, line 49. -/
def IMAGE_EXTENSIONS : List String := [".jpg", ".jpeg", ".png", ".webp", ".svg"]

/-- Whether `findImages` accepts a file name as an image (line 48–49):
its extension, lower-cased, is in the optimizable set. -/
def isImageName (name : String) : Bool :=
  IMAGE_EXTENSIONS.contains (myToLower (extname name))

/-- Lines 138–139: original format of a file, i.e. its lower-cased
extension without the leading dot, with `jpeg` normalized to `jpg`. -/
def originalFormatOf (name : String) : String :=
  let ext := (myToLower (extname name)).drop 1
  if ext = "jpeg" then "jpg" else ext

/-! ## Image discovery (`findImages`, lines 33–61)

Directory trees are embedded as finite trees of named entries; a directory
whose `readdir` would throw is a `baddir` carrying the error message.
Paths are lists of components (`path.join` is list append,
`path.relative(baseDir, dir)` for `dir` beneath `baseDir` is the component
list of `dir` below `baseDir`).
-/

/-- A filesystem entry as seen by the traversal. -/
inductive Entry where
  | file (name : String) : Entry
  | dir (name : String) (entries : List Entry) : Entry
  | baddir (name : String) (msg : String) : Entry

/-- One discovered image: its path below the search root and the path of
its containing directory below the root (`relativePath` in the source). -/
structure ImageRef where
  file : List String
  relativePath : List String
deriving DecidableEq, Repr

mutual

/-- Discovery on a single directory entry, at containing-directory path
`rel` below the root.  A subdirectory contributes its recursive results; a
file contributes itself iff `isImageName` accepts it, with `relativePath`
the containing directory `rel` (lines 39–57); an unreadable directory
throws (the `readdir` rejection propagates out of `findImages`). -/
def findOne (rel : List String) : Entry → Except String (List ImageRef)
  | Entry.baddir _ msg => Except.error msg
  | Entry.dir name entries =>
    match findList (rel ++ [name]) entries with
    | Except.error m => Except.error m
    | Except.ok sub => Except.ok sub
  | Entry.file name =>
    Except.ok (if isImageName name then [⟨rel ++ [name], rel⟩] else [])

/-- Discovery on a directory's entry list, in enumeration order: each
entry's results are appended at the point of that entry (the
`results = results.concat(subResults)` / `results.push(...)` accumulation
of lines 39–58); the first thrown error aborts the whole traversal. -/
def findList (rel : List String) : List Entry → Except String (List ImageRef)
  | [] => Except.ok []
  | e :: rest =>
    match findOne rel e with
    | Except.error m => Except.error m
    | Except.ok s =>
      match findList rel rest with
      | Except.error m => Except.error m
      | Except.ok r => Except.ok (s ++ r)

end

mutual

/-- Number of image files in one entry (reference count for discovery). -/
def countOne : Entry → Nat
  | Entry.file name => if isImageName name then 1 else 0
  | Entry.dir _ entries => countList entries
  | Entry.baddir _ _ => 0

/-- Number of image files in an entry list. -/
def countList : List Entry → Nat
  | [] => 0
  | e :: rest => countOne e + countList rest

end

/-! ## CLI validation (`program.action`, lines 335–358) -/

/-- Line 25. -/
def SUPPORTED_FORMATS : List String := ["jpg", "png", "webp", "svg"]

/-- Lines 337–342: the format check passes iff
`SUPPORTED_FORMATS.includes(options.format)`. -/
def formatValidationPasses (format : String) : Bool :=
  SUPPORTED_FORMATS.contains format

/-- Lines 343–346: the quality check fails (and the process exits 1) iff
`options.quality < 1 || options.quality > 100`, with JavaScript `<`/`>`
semantics on `NaN`. -/
def qualityValidationFails (q : JSNumber) : Bool :=
  jsLt q (JSNumber.int 1) || jsLt (JSNumber.int 100) q

/-- Lines 347–354: the aspect check fails iff
`aspect !== "scale" && aspect !== "crop" && aspect !== false`. -/
def aspectValidationPasses (a : JSVal) : Bool :=
  if a ≠ JSVal.str "scale" ∧ a ≠ JSVal.str "crop" ∧ a ≠ JSVal.bool false then
    false
  else
    true

/-! ## Transform planning (lines 138–214)

The per-file decision logic: output format, resize options handed to
`sharp.resize`, and codec parameters handed to the encoder.
-/

/-- The `sharp.fit` enumeration. -/
inductive Fit where
  | inside | cover | contain | fill | outside
deriving DecidableEq, Repr

/-- The `sharp` crop-anchor strategies. -/
inductive Position where
  | entropy | attention
deriving DecidableEq, Repr

/-- The object passed to `sharp.resize` (lines 186–192): `width` and
`height` always, `fit` and `position` only when the aspect branch sets
them. -/
structure ResizeOptions where
  width : Option JSNumber
  height : Option JSNumber
  fit : Option Fit
  position : Option Position
deriving DecidableEq, Repr

/-- Lines 186–192: start from `{ width, height }`; `aspect === "scale"`
adds `fit: sharp.fit.inside`; `aspect === "crop"` adds `fit:
sharp.fit.cover` and `position: sharp.strategy.entropy`; any other aspect
value (including the boolean `false`) leaves both unset. -/
def buildResizeOptions (aspect : JSVal) (width height : Option JSNumber) : ResizeOptions :=
  let base : ResizeOptions := ⟨width, height, none, none⟩
  if aspect = JSVal.str "scale" then
    { base with fit := some Fit.inside }
  else if aspect = JSVal.str "crop" then
    { base with fit := some Fit.cover, position := some Position.entropy }
  else
    base

/-- Line 185: `sharp.resize` is called (with the options of
`buildResizeOptions`) iff `width || height` is truthy. -/
def resizePlan (aspect : JSVal) (width height : Option JSNumber) : Option ResizeOptions :=
  if jsTruthyNum width || jsTruthyNum height then
    some (buildResizeOptions aspect width height)
  else
    none

/-- Lines 201–204: `Math.max(0, Math.min(9, Math.floor((100 - quality) / 11)))`.
`Math.floor` on an exact integer quotient is floor division (`Int.fdiv`);
every `Math` operation on `NaN` yields `NaN`. -/
def pngCompressionLevel : JSNumber → JSNumber
  | JSNumber.nan => JSNumber.nan
  | JSNumber.int q => JSNumber.int (max 0 (min 9 (Int.fdiv (100 - q) 11)))

/-- Parameters handed to the chosen encoder (lines 196–214). -/
inductive CodecParams where
  | jpeg (quality : JSNumber)
  | png (compressionLevel : JSNumber) (adaptiveFiltering : Bool) (palette : Bool)
  | webp (quality : JSNumber)
deriving DecidableEq, Repr

/-- Lines 205–209: the object handed to `sharp.png`. -/
def pngParams (q : JSNumber) : CodecParams :=
  CodecParams.png (pngCompressionLevel q) true true

/-- The per-file transform plan: either the SVG passthrough branch
(lines 141–171: `svgo.optimize(content, { multipass: true })`, no resize,
no quality) or the raster branch (lines 172–216). -/
inductive FilePlan where
  | svgPassthrough (multipass : Bool)
  | raster (outputFormat : String) (resize : Option ResizeOptions) (codec : Option CodecParams)
deriving DecidableEq, Repr

/-- The extension the output file will carry (`.svg` on the SVG branch,
line 151; `"." + outputFormat` on the raster branch, line 180). -/
def FilePlan.outputFormatOf : FilePlan → String
  | FilePlan.svgPassthrough _ => "svg"
  | FilePlan.raster f _ _ => f

/-- The pure per-file decision logic of the processing loop
(lines 76–77 and 138–214): `useOriginalFormat` (line 77) is
`format === DEFAULT_FORMAT && options.preserveFormat` with
`DEFAULT_FORMAT = "jpg"`; an SVG original takes the passthrough branch;
otherwise the output format is the original format when
`useOriginalFormat` holds and the target `format` otherwise, the resize
options follow `resizePlan`, and the codec parameters follow the
`switch (outputFormat)` of lines 196–214 (no case matches any other
format, leaving the codec unconfigured). -/
def planFile (format : String) (preserveFormat : Bool) (qualityRaw : JSNumber)
    (width height : Option JSNumber) (aspect : JSVal) (name : String) : FilePlan :=
  let quality := jsParseIntNum qualityRaw
  let useOriginalFormat := format == "jpg" && preserveFormat
  let originalFormat := originalFormatOf name
  if originalFormat = "svg" then
    FilePlan.svgPassthrough true
  else
    let outputFormat := if useOriginalFormat then originalFormat else format
    let codec : Option CodecParams :=
      if outputFormat = "jpg" then some (CodecParams.jpeg quality)
      else if outputFormat = "png" then some (pngParams quality)
      else if outputFormat = "webp" then some (CodecParams.webp quality)
      else none
    FilePlan.raster outputFormat (resizePlan aspect width height) codec

/-! ## The processing loop (lines 129–254) and orchestration (lines 66–282)

Filesystem and codec effects for one file are summarized by a `FileEnv`:
the result of the initial `fs.statSync(file)` (line 135), and the combined
result of everything after it (read / `mkdirSync` / codec / write /
output stat, lines 138–219) — `ok` carries the optimized output size.
-/

deriving instance DecidableEq for Except

/-- External-world outcomes for one file. -/
structure FileEnv where
  statSize : Except String Nat
  procOut : Except String Nat
deriving DecidableEq, Repr

/-- A row's final status: lines 168/230 push a success row, lines 236–244
push an error row carrying the thrown error's message. -/
inductive RowStatus where
  | success : RowStatus
  | error (msg : String) : RowStatus
deriving DecidableEq, Repr

/-- Mutable loop state: the two running totals (lines 113–114), the
success counter (line 129) and the table rows (line 116). -/
structure LoopState where
  totalOriginalSize : Nat
  totalOptimizedSize : Nat
  optimizedCount : Nat
  rows : List RowStatus
deriving DecidableEq, Repr

/-- One iteration of the `for` loop (lines 133–254): stat the original
(a throw lands in the `catch`, line 235, pushing an error row); add its
size to `totalOriginalSize` (line 136); run the remaining processing —
on a throw, push an error row and continue, on success add the output
size to `totalOptimizedSize`, increment `optimizedCount` and push a
success row. -/
def processFile (st : LoopState) (e : FileEnv) : LoopState :=
  match e.statSize with
  | Except.error m => { st with rows := st.rows ++ [RowStatus.error m] }
  | Except.ok originalSize =>
    let st := { st with totalOriginalSize := st.totalOriginalSize + originalSize }
    match e.procOut with
    | Except.error m => { st with rows := st.rows ++ [RowStatus.error m] }
    | Except.ok optimizedSize =>
      { st with
        totalOptimizedSize := st.totalOptimizedSize + optimizedSize
        optimizedCount := st.optimizedCount + 1
        rows := st.rows ++ [RowStatus.success] }

/-- The whole processing loop, from zero totals. -/
def runLoop (envs : List FileEnv) : LoopState :=
  envs.foldl processFile ⟨0, 0, 0, []⟩

/-- The expected row status for a file, given its environment. -/
def rowFor (e : FileEnv) : RowStatus :=
  match e.statSize with
  | Except.error m => RowStatus.error m
  | Except.ok _ =>
    match e.procOut with
    | Except.error m => RowStatus.error m
    | Except.ok _ => RowStatus.success

/-- External-world inputs of one invocation of `optimizeImages`:
the outcome of creating the output root (lines 80–82), the directory tree
of the working directory as it stands after that creation (discovery runs
at line 90, after the root is prepared), and the per-file outcomes, keyed
by discovered file path. -/
structure RunEnv where
  mkdirRoot : Except String Unit
  tree : List Entry
  fenv : List String → FileEnv

/-- Result of one invocation of `optimizeImages`: either the run aborted
before the loop (the outer `catch`, line 279, reached from root
preparation or discovery), or it completed with the discovered images and
the final loop state. -/
inductive RunResult where
  | aborted (msg : String) : RunResult
  | completed (images : List ImageRef) (final : LoopState) : RunResult
deriving DecidableEq, Repr

/-- `optimizeImages` (lines 66–282): prepare the output root; on success
discover images from the working directory; on success run the processing
loop over every discovered file. -/
def runOptimize (env : RunEnv) : RunResult :=
  match env.mkdirRoot with
  | Except.error m => RunResult.aborted m
  | Except.ok _ =>
    match findList [] env.tree with
    | Except.error m => RunResult.aborted m
    | Except.ok images =>
      RunResult.completed images (runLoop (images.map (fun r => env.fenv r.file)))

/-- Observable result of `program.action` (lines 335–358): `exit1` when a
validation check calls `process.exit(1)`, otherwise the run itself. -/
inductive ProgramResult where
  | exit1 : ProgramResult
  | ran (r : RunResult) : ProgramResult
deriving DecidableEq, Repr

/-- `program.action` (lines 335–358): validate format, then quality, then
aspect, exiting with status 1 at the first failure; only when all three
pass is `optimizeImages` invoked. -/
def programAction (format : String) (quality : JSNumber) (aspect : JSVal)
    (env : RunEnv) : ProgramResult :=
  if formatValidationPasses format = false then ProgramResult.exit1
  else if qualityValidationFails quality = true then ProgramResult.exit1
  else if aspectValidationPasses aspect = false then ProgramResult.exit1
  else ProgramResult.ran (runOptimize env)

/-! ## Accounting helpers -/

/-- What a file adds to `totalOriginalSize`: its stat size whenever the
initial stat succeeds, regardless of later failures. -/
def statContribution (e : FileEnv) : Nat :=
  match e.statSize with
  | Except.ok n => n
  | Except.error _ => 0

/-- What a file adds to `totalOptimizedSize`: its output size when every
step succeeds, nothing otherwise. -/
def successOutput (e : FileEnv) : Nat :=
  match e.statSize, e.procOut with
  | Except.ok _, Except.ok o => o
  | _, _ => 0

/-- Whether the file is fully processed with no error. -/
def isSuccess (e : FileEnv) : Bool :=
  match e.statSize, e.procOut with
  | Except.ok _, Except.ok _ => true
  | _, _ => false

/-- The original size of a file counted only on full success (the
reading of the totals that the specification asserts). -/
def successOriginal (e : FileEnv) : Nat :=
  match e.statSize, e.procOut with
  | Except.ok n, Except.ok _ => n
  | _, _ => 0

/-- Closed form of the processing loop from an arbitrary starting state. -/
theorem foldl_processFile (envs : List FileEnv) : ∀ st : LoopState,
    envs.foldl processFile st =
      ⟨st.totalOriginalSize + (envs.map statContribution).sum,
       st.totalOptimizedSize + (envs.map successOutput).sum,
       st.optimizedCount + envs.countP isSuccess,
       st.rows ++ envs.map rowFor⟩ := by
  induction envs with
  | nil => intro st; simp
  | cons e rest ih =>
    intro st
    rcases e with ⟨stat, proc⟩
    rcases stat with m | n <;> rcases proc with m' | o <;>
      simp [List.foldl_cons, ih, processFile, statContribution, successOutput,
        isSuccess, rowFor, List.countP_cons, Nat.add_assoc, Nat.add_comm,
        Nat.add_left_comm]

/-- The rows produced by the loop, one per file, in order. -/
theorem runLoop_rows (envs : List FileEnv) : (runLoop envs).rows = envs.map rowFor := by
  simp [runLoop, foldl_processFile]

/-- C1 (amended): the optimized count and `totalOptimizedSize` are
computed over the successful files alone, but `totalOriginalSize` sums the
stat size of every file whose initial stat succeeded, including files
whose later processing failed; only a file whose stat itself fails
contributes to neither total. -/
theorem c1_totals (envs : List FileEnv) :
    (runLoop envs).optimizedCount = envs.countP isSuccess
    ∧ (runLoop envs).totalOptimizedSize = (envs.map successOutput).sum
    ∧ (runLoop envs).totalOriginalSize = (envs.map statContribution).sum := by
  simp [runLoop, foldl_processFile]

/-- The run of the claimed scenario: four successful files and one corrupt
file whose stat succeeds but whose codec invocation throws. -/
def c1Envs : List FileEnv :=
  [⟨Except.ok 100, Except.ok 40⟩, ⟨Except.ok 100, Except.ok 40⟩,
   ⟨Except.ok 100, Except.ok 40⟩, ⟨Except.ok 100, Except.ok 40⟩,
   ⟨Except.ok 1000, Except.error "Input buffer contains unsupported image format"⟩]

/-- C1 counterexample: with one corrupt file (stat 1000 bytes, codec
throws) among four successes (100 bytes each), the code's
`totalOriginalSize` is 1400, not the successes-only 400 the claim
asserts; the failing file does contribute to `totalOriginalSize`. -/
theorem c1_counterexample :
    (runLoop c1Envs).optimizedCount = 4
    ∧ (c1Envs.map successOriginal).sum = 400
    ∧ (runLoop c1Envs).totalOriginalSize = 1400
    ∧ (runLoop c1Envs).totalOriginalSize ≠ (c1Envs.map successOriginal).sum := by
  decide

/-- C5: the processing loop never aborts the run — every per-file failure
yields an error row carrying the underlying error message and the loop
moves on, producing exactly one row per discovered file — and a run
aborts only when output-root preparation or discovery fails. -/
theorem c5_per_file_errors_nonfatal (env : RunEnv) :
    (∀ m, runOptimize env = RunResult.aborted m →
        env.mkdirRoot = Except.error m ∨ findList [] env.tree = Except.error m)
    ∧ (∀ imgs final, runOptimize env = RunResult.completed imgs final →
        final.rows = imgs.map (fun r => rowFor (env.fenv r.file)))
    ∧ (∀ f q a, programAction f q a env = ProgramResult.exit1 →
        formatValidationPasses f = false ∨ qualityValidationFails q = true
        ∨ aspectValidationPasses a = false) := by
  refine ⟨?_, ?_, ?_⟩
  · intro m hm
    unfold runOptimize at hm
    cases h1 : env.mkdirRoot with
    | error m' =>
      rw [h1] at hm
      simp at hm
      subst hm
      exact Or.inl rfl
    | ok u =>
      rw [h1] at hm
      cases h2 : findList [] env.tree with
      | error m' =>
        rw [h2] at hm
        simp at hm
        subst hm
        exact Or.inr rfl
      | ok imgs =>
        rw [h2] at hm
        simp at hm
  · intro imgs final hc
    unfold runOptimize at hc
    cases h1 : env.mkdirRoot with
    | error m' => rw [h1] at hc; simp at hc
    | ok u =>
      rw [h1] at hc
      cases h2 : findList [] env.tree with
      | error m' => rw [h2] at hc; simp at hc
      | ok l =>
        rw [h2] at hc
        simp at hc
        rcases hc with ⟨hl, hf⟩
        subst hl
        rw [← hf, runLoop_rows, List.map_map]
        rfl
  · intro f q a hx
    by_cases hf : formatValidationPasses f = false
    · exact Or.inl hf
    by_cases hq : qualityValidationFails q = true
    · exact Or.inr (Or.inl hq)
    by_cases ha2 : aspectValidationPasses a = false
    · exact Or.inr (Or.inr ha2)
    exfalso
    simp [programAction, hf, hq, ha2] at hx

/-- A three-file run in which the middle file's codec throws. -/
def env0 : RunEnv :=
  ⟨Except.ok (),
   [Entry.file "a.jpg", Entry.file "b.png", Entry.file "c.webp"],
   fun p => if p = ["b.png"] then ⟨Except.ok 500, Except.error "corrupt"⟩
            else ⟨Except.ok 100, Except.ok 40⟩⟩

/-- The images `env0` discovers. -/
def imgs0 : List ImageRef := [⟨["a.jpg"], []⟩, ⟨["b.png"], []⟩, ⟨["c.webp"], []⟩]

/-- The final loop state of the `env0` run. -/
def st0 : LoopState :=
  ⟨700, 80, 2, [RowStatus.success, RowStatus.error "corrupt", RowStatus.success]⟩

/-- C5 witness: on the concrete `env0` run the loop completes with a row
for each of the three files, the middle one an error row. -/
theorem c5_witness : st0.rows = imgs0.map (fun r => rowFor (env0.fenv r.file)) :=
  (c5_per_file_errors_nonfatal env0).2.1 imgs0 st0 (by decide)

/-! ## Discovery lemmas -/

mutual

/-- A successful `findOne` yields one entry per image file in the entry. -/
theorem findOne_length (rel : List String) : (e : Entry) → (l : List ImageRef) →
    findOne rel e = Except.ok l → l.length = countOne e
  | Entry.file name, l, h => by
    simp only [findOne, Except.ok.injEq] at h
    subst h
    cases hi : isImageName name <;> simp [countOne, hi]
  | Entry.dir name entries, l, h => by
    simp only [findOne] at h
    cases hs : findList (rel ++ [name]) entries with
    | error m => rw [hs] at h; exact absurd h (by simp)
    | ok sub =>
      rw [hs] at h
      simp only [Except.ok.injEq] at h
      subst h
      simpa [countOne] using findList_length (rel ++ [name]) entries sub hs
  | Entry.baddir _ _, l, h => by simp [findOne] at h

/-- A successful `findList` yields one entry per image file in the list. -/
theorem findList_length (rel : List String) : (es : List Entry) → (l : List ImageRef) →
    findList rel es = Except.ok l → l.length = countList es
  | [], l, h => by
    simp only [findList, Except.ok.injEq] at h
    subst h
    simp [countList]
  | e :: rest, l, h => by
    simp only [findList] at h
    cases h1 : findOne rel e with
    | error m => rw [h1] at h; exact absurd h (by simp)
    | ok s =>
      rw [h1] at h
      cases h2 : findList rel rest with
      | error m => rw [h2] at h; exact absurd h (by simp)
      | ok r =>
        rw [h2] at h
        simp only [Except.ok.injEq] at h
        subst h
        simp [countList, findOne_length rel e s h1, findList_length rel rest r h2]

end

mutual

/-- Every entry a successful `findOne` emits is an accepted image file
sitting directly in its recorded containing directory. -/
theorem findOne_shape (rel : List String) : (e : Entry) → (l : List ImageRef) →
    findOne rel e = Except.ok l →
    ∀ r ∈ l, ∃ n, r.file = r.relativePath ++ [n] ∧ isImageName n = true
  | Entry.file name, l, h => by
    simp only [findOne, Except.ok.injEq] at h
    subst h
    cases hi : isImageName name with
    | false => simp [hi]
    | true =>
      simp only [hi, if_pos]
      intro r hr
      simp only [List.mem_singleton] at hr
      subst hr
      exact ⟨name, rfl, hi⟩
  | Entry.dir name entries, l, h => by
    simp only [findOne] at h
    cases hs : findList (rel ++ [name]) entries with
    | error m => rw [hs] at h; exact absurd h (by simp)
    | ok sub =>
      rw [hs] at h
      simp only [Except.ok.injEq] at h
      subst h
      exact findList_shape (rel ++ [name]) entries sub hs
  | Entry.baddir _ _, l, h => by simp [findOne] at h

/-- Every entry a successful `findList` emits is an accepted image file
sitting directly in its recorded containing directory. -/
theorem findList_shape (rel : List String) : (es : List Entry) → (l : List ImageRef) →
    findList rel es = Except.ok l →
    ∀ r ∈ l, ∃ n, r.file = r.relativePath ++ [n] ∧ isImageName n = true
  | [], l, h => by
    simp only [findList, Except.ok.injEq] at h
    subst h
    simp
  | e :: rest, l, h => by
    simp only [findList] at h
    cases h1 : findOne rel e with
    | error m => rw [h1] at h; exact absurd h (by simp)
    | ok s =>
      rw [h1] at h
      cases h2 : findList rel rest with
      | error m => rw [h2] at h; exact absurd h (by simp)
      | ok r =>
        rw [h2] at h
        simp only [Except.ok.injEq] at h
        subst h
        intro x hx
        rcases List.mem_append.mp hx with hxs | hxr
        · exact findOne_shape rel e s h1 x hxs
        · exact findList_shape rel rest r h2 x hxr

end

/-- C4: a successful discovery returns exactly one entry per image file of
the tree (files whose lower-cased extension is in the optimizable set),
at any nesting depth; each entry's `relativePath` is the path of the
file's containing directory relative to the root (the file's path minus
its final name component); and the traversal is depth-first with a
subdirectory's results appended at the point of that subdirectory's
entry. -/
theorem c4_discovery (es : List Entry) (l : List ImageRef)
    (h : findList [] es = Except.ok l) :
    l.length = countList es
    ∧ (∀ r ∈ l, ∃ n, r.file = r.relativePath ++ [n] ∧ isImageName n = true)
    ∧ (∀ name, isImageName name = IMAGE_EXTENSIONS.contains (myToLower (extname name)))
    ∧ (∀ rel name sub rest s t,
        findList (rel ++ [name]) sub = Except.ok s →
        findList rel rest = Except.ok t →
        findList rel (Entry.dir name sub :: rest) = Except.ok (s ++ t)) := by
  refine ⟨findList_length [] es l h, findList_shape [] es l h, fun _ => rfl, ?_⟩
  intro rel name sub rest s t hs ht
  simp [findList, findOne, hs, ht]

/-- A tree with four image files (one with an upper-case extension) and
two non-image files, across three nesting levels. -/
def tree0 : List Entry :=
  [Entry.file "a.JPG", Entry.file "notes.txt",
   Entry.dir "sub"
     [Entry.file "b.png", Entry.dir "deep" [Entry.file "c.svg"], Entry.file "x.doc"],
   Entry.file "d.webp"]

/-- What discovery returns on `tree0`. -/
def imgs4 : List ImageRef :=
  [⟨["a.JPG"], []⟩, ⟨["sub", "b.png"], ["sub"]⟩,
   ⟨["sub", "deep", "c.svg"], ["sub", "deep"]⟩, ⟨["d.webp"], []⟩]

/-- C4 witness: on `tree0` (four image files among six files, three
levels deep) discovery returns exactly four entries. -/
theorem c4_witness : imgs4.length = countList tree0 ∧ countList tree0 = 4 :=
  ⟨(c4_discovery tree0 imgs4 (by decide)).1, by decide⟩

/-! ## Subdirectory reachability -/

/-- `Beneath es p tgt`: the directory whose entries are `tgt` is reached
from the directory whose entries are `es` by descending the component
path `p`. -/
inductive Beneath : List Entry → List String → List Entry → Prop where
  | here (es : List Entry) : Beneath es [] es
  | there {es sub tgt : List Entry} {n : String} {p : List String} :
      Entry.dir n sub ∈ es → Beneath sub p tgt → Beneath es (n :: p) tgt

/-- When traversal of a directory succeeds, traversal of any of its
member subdirectories also succeeded and its results are among the
directory's results. -/
theorem mem_dir_findList (rel : List String) (n : String) (sub : List Entry) :
    ∀ (es : List Entry) (l : List ImageRef), Entry.dir n sub ∈ es →
      findList rel es = Except.ok l →
      ∃ s, findList (rel ++ [n]) sub = Except.ok s ∧ ∀ r ∈ s, r ∈ l
  | [], l, hmem, _ => absurd hmem (List.not_mem_nil _)
  | e :: rest, l, hmem, h => by
    simp only [findList] at h
    cases h1 : findOne rel e with
    | error m => rw [h1] at h; exact absurd h (by simp)
    | ok s1 =>
      rw [h1] at h
      cases h2 : findList rel rest with
      | error m => rw [h2] at h; exact absurd h (by simp)
      | ok t =>
        rw [h2] at h
        simp only [Except.ok.injEq] at h
        subst h
        rcases List.mem_cons.mp hmem with he | hrest
        · subst he
          simp only [findOne] at h1
          cases hs : findList (rel ++ [n]) sub with
          | error m => rw [hs] at h1; exact absurd h1 (by simp)
          | ok s =>
            rw [hs] at h1
            simp only [Except.ok.injEq] at h1
            subst h1
            exact ⟨s, rfl, fun r hr => List.mem_append_left _ hr⟩
        · rcases mem_dir_findList rel n sub rest t hrest h2 with ⟨s, hs, hsub⟩
          exact ⟨s, hs, fun r hr => List.mem_append_right _ (hsub r hr)⟩

/-- Results of a reachable subdirectory are among the results of the
directory it is reached from. -/
theorem beneath_findList {es tgt : List Entry} {p : List String}
    (hb : Beneath es p tgt) :
    ∀ (rel : List String) (l s : List ImageRef),
      findList rel es = Except.ok l → findList (rel ++ p) tgt = Except.ok s →
      ∀ r ∈ s, r ∈ l := by
  induction hb with
  | here es =>
    intro rel l s h hs r hr
    rw [List.append_nil, h] at hs
    simp only [Except.ok.injEq] at hs
    subst hs
    exact hr
  | @there es' sub' tgt' n' p' hmem hbsub ih =>
    intro rel l s h hs r hr
    rcases mem_dir_findList rel n' sub' es' l hmem h with ⟨s1, hs1, hsub⟩
    rw [show rel ++ n' :: p' = (rel ++ [n']) ++ p' by simp] at hs
    exact hsub r (ih (rel ++ [n']) s1 s hs1 hs r hr)

/-- C10: the output root is prepared before discovery runs (a completed
run implies root preparation succeeded and discovery ran on the
post-creation tree), and discovery excludes no directory: whenever the
output root is reachable beneath the working directory, every image file
already inside it is among the discovered images, and the completed run
processes one row per discovered image — so those files are
re-processed. -/
theorem c10_output_root_rescanned (env : RunEnv) (p : List String)
    (tgt : List Entry) (imgs : List ImageRef) (final : LoopState)
    (s : List ImageRef)
    (hb : Beneath env.tree p tgt)
    (hrun : runOptimize env = RunResult.completed imgs final)
    (hs : findList p tgt = Except.ok s) :
    (∀ r ∈ s, r ∈ imgs) ∧ final.rows.length = imgs.length := by
  unfold runOptimize at hrun
  cases h1 : env.mkdirRoot with
  | error m => rw [h1] at hrun; simp at hrun
  | ok u =>
    rw [h1] at hrun
    cases h2 : findList [] env.tree with
    | error m => rw [h2] at hrun; simp at hrun
    | ok l =>
      rw [h2] at hrun
      simp only [RunResult.completed.injEq] at hrun
      rcases hrun with ⟨hl, hf⟩
      subst hl
      constructor
      · exact fun r hr => beneath_findList hb [] l s h2 (by simpa using hs) r hr
      · rw [← hf, runLoop_rows, List.map_map, List.length_map]

/-- A run whose working directory already holds the output root
`optimized_images` with a previously produced image inside it. -/
def env10 : RunEnv :=
  ⟨Except.ok (),
   [Entry.dir "optimized_images" [Entry.file "old.jpg"], Entry.file "a.png"],
   fun _ => ⟨Except.ok 100, Except.ok 40⟩⟩

/-- The images the `env10` run discovers: the stale output file first. -/
def imgs10 : List ImageRef :=
  [⟨["optimized_images", "old.jpg"], ["optimized_images"]⟩, ⟨["a.png"], []⟩]

/-- The final loop state of the `env10` run: both files processed. -/
def st10 : LoopState := ⟨200, 80, 2, [RowStatus.success, RowStatus.success]⟩

/-- C10 witness: the image inside the pre-existing output root is
discovered and the run processes a row for each discovered image. -/
theorem c10_witness :
    (⟨["optimized_images", "old.jpg"], ["optimized_images"]⟩ : ImageRef) ∈ imgs10
    ∧ st10.rows.length = imgs10.length := by
  have hb : Beneath env10.tree ["optimized_images"] [Entry.file "old.jpg"] :=
    Beneath.there (List.mem_cons_self _ _) (Beneath.here _)
  have h := c10_output_root_rescanned env10 ["optimized_images"]
    [Entry.file "old.jpg"] imgs10 st10
    [⟨["optimized_images", "old.jpg"], ["optimized_images"]⟩]
    hb (by decide) (by decide)
  exact ⟨h.1 _ (List.mem_cons_self _ _), h.2⟩

/-! ## Validation claims -/

/-- C6 counterexample: the format `"svg"` lies outside the claimed
three-element set `{jpg, png, webp}`, yet the format check passes on it,
so it is not true that every value outside that set fails validation. -/
theorem c6_counterexample :
    formatValidationPasses "svg" = true
    ∧ ¬("svg" = "jpg" ∨ "svg" = "png" ∨ "svg" = "webp") := by
  decide

/-- C6 (amended): validation accepts exactly the target formats `jpg`,
`png`, `webp` and `svg` (the members of `SUPPORTED_FORMATS`); for every
other `--format` value the process exits with a non-zero status before
any file processing. -/
theorem c6_format_validation (f : String) :
    (formatValidationPasses f = true
      ↔ (f = "jpg" ∨ f = "png" ∨ f = "webp" ∨ f = "svg"))
    ∧ (∀ q a env, formatValidationPasses f = false →
        programAction f q a env = ProgramResult.exit1) := by
  constructor
  · simp [formatValidationPasses, SUPPORTED_FORMATS]
  · intro q a env hf
    simp [programAction, hf]

/-- C6 witness: `"gif"` fails validation and the process exits before any
processing; the in-set value `"jpg"` passes. -/
theorem c6_witness :
    programAction "gif" (JSNumber.int 80) (JSVal.str "scale") env0 = ProgramResult.exit1
    ∧ formatValidationPasses "jpg" = true :=
  ⟨(c6_format_validation "gif").2 (JSNumber.int 80) (JSVal.str "scale") env0 (by decide),
   ((c6_format_validation "jpg").1).mpr (Or.inl rfl)⟩

/-- C7: the aspect check accepts exactly the values `"scale"`, `"crop"`
and the boolean literal `false` (the three values the `!==` chain
compares against); for every other aspect value the process exits with a
non-zero status before any file processing. -/
theorem c7_aspect_validation (v : JSVal) :
    (aspectValidationPasses v = true
      ↔ (v = JSVal.str "scale" ∨ v = JSVal.str "crop" ∨ v = JSVal.bool false))
    ∧ (∀ f q env, aspectValidationPasses v = false →
        programAction f q v env = ProgramResult.exit1) := by
  constructor
  · unfold aspectValidationPasses
    split_ifs with h
    · push_neg at h
      simp only [Bool.false_eq_true, false_iff]
      tauto
    · push_neg at h
      simp only [true_iff]
      by_cases h1 : v = JSVal.str "scale"
      · exact Or.inl h1
      · by_cases h2 : v = JSVal.str "crop"
        · exact Or.inr (Or.inl h2)
        · exact Or.inr (Or.inr (h h1 h2))
  · intro f q env ha
    simp [programAction, ha]

/-- C7 witness: the boolean `false` passes the aspect check; the value
`"diagonal"` fails it and the process exits before any processing. -/
theorem c7_witness :
    aspectValidationPasses (JSVal.bool false) = true
    ∧ programAction "jpg" (JSNumber.int 80) (JSVal.str "diagonal") env0
        = ProgramResult.exit1 :=
  ⟨((c7_aspect_validation (JSVal.bool false)).1).mpr (Or.inr (Or.inr rfl)),
   (c7_aspect_validation (JSVal.str "diagonal")).2 "jpg" (JSNumber.int 80) env0
     (by decide)⟩

/-- C9: a `--quality` string with no parseable number yields `NaN`, for
which both comparisons of the validation check are `false`; with the
other options at their defaults the run passes validation and proceeds to
process files instead of exiting non-zero. -/
theorem c9_nan_quality_passes (s : String) (env : RunEnv)
    (h : jsParseInt s = JSNumber.nan) :
    qualityValidationFails (jsParseInt s) = false
    ∧ programAction "jpg" (jsParseInt s) (JSVal.str "scale") env
        = ProgramResult.ran (runOptimize env) := by
  rw [h]
  refine ⟨rfl, ?_⟩
  simp [programAction, formatValidationPasses, SUPPORTED_FORMATS,
    qualityValidationFails, jsLt, aspectValidationPasses]

/-- C9 witness: `"abc"` parses to `NaN`, the quality check does not fail,
and the concrete `env0` run proceeds to process its files. -/
theorem c9_witness :
    jsParseInt "abc" = JSNumber.nan
    ∧ qualityValidationFails (jsParseInt "abc") = false
    ∧ programAction "jpg" (jsParseInt "abc") (JSVal.str "scale") env0
        = ProgramResult.ran (runOptimize env0) := by
  have hp : jsParseInt "abc" = JSNumber.nan := by decide
  exact ⟨hp, (c9_nan_quality_passes "abc" env0 hp).1,
    (c9_nan_quality_passes "abc" env0 hp).2⟩

/-! ## Transform-plan claims -/

/-- C3: the output format is `svg` exactly when the original format is
`svg` (the passthrough plan, independent of the target format, with no
resize and no quality parameter); otherwise it is the file's own original
format (`jpeg` normalized to `jpg`) when the target format is the default
`jpg` and `preserveFormat` is set, and the target format in every other
case. -/
theorem c3_output_format (format : String) (preserve : Bool) (q : JSNumber)
    (w h : Option JSNumber) (a : JSVal) (name : String) :
    (originalFormatOf name = "svg" →
        planFile format preserve q w h a name = FilePlan.svgPassthrough true)
    ∧ (¬originalFormatOf name = "svg" →
        (planFile format preserve q w h a name).outputFormatOf =
          if format = "jpg" ∧ preserve = true then originalFormatOf name
          else format) := by
  constructor
  · intro hs
    simp [planFile, hs]
  · intro hs
    cases preserve <;> by_cases h1 : format = "jpg" <;>
      simp [planFile, hs, h1, FilePlan.outputFormatOf]

/-- C3 witness: an SVG original is planned as passthrough even under a
`webp` target; with the default target and `preserveFormat`, a `JPEG`
original maps to `jpg` and a `PNG` original keeps `png`; under a
non-default `webp` target every raster original maps to `webp`. -/
theorem c3_witness :
    planFile "webp" true (JSNumber.int 80) none none (JSVal.str "scale") "logo.svg"
        = FilePlan.svgPassthrough true
    ∧ (planFile "jpg" true (JSNumber.int 80) none none (JSVal.str "scale")
        "photo.JPEG").outputFormatOf = "jpg"
    ∧ (planFile "jpg" true (JSNumber.int 80) none none (JSVal.str "scale")
        "pic.PNG").outputFormatOf = "png"
    ∧ (planFile "webp" true (JSNumber.int 80) none none (JSVal.str "scale")
        "pic.png").outputFormatOf = "webp" :=
  ⟨(c3_output_format "webp" true (JSNumber.int 80) none none (JSVal.str "scale")
      "logo.svg").1 (by decide),
   ((c3_output_format "jpg" true (JSNumber.int 80) none none (JSVal.str "scale")
      "photo.JPEG").2 (by decide)).trans (by decide),
   ((c3_output_format "jpg" true (JSNumber.int 80) none none (JSVal.str "scale")
      "pic.PNG").2 (by decide)).trans (by decide),
   ((c3_output_format "webp" true (JSNumber.int 80) none none (JSVal.str "scale")
      "pic.png").2 (by decide)).trans (by decide)⟩

/-- C8: for an integer quality in `[1, 100]` the PNG encoder is handed
the compression level `clamp(0, 9, floor((100 - quality) / 11))` — the
clamp is the identity on this range — with adaptive filtering and
palette-based quantization enabled. -/
theorem c8_png_codec_params (q : Int) (h1 : 1 ≤ q) (h2 : q ≤ 100) :
    pngParams (JSNumber.int q)
      = CodecParams.png (JSNumber.int (Int.fdiv (100 - q) 11)) true true := by
  have hd : Int.fdiv (100 - q) 11 = (100 - q) / 11 :=
    Int.fdiv_eq_ediv _ (by norm_num)
  simp only [pngParams, pngCompressionLevel, hd, CodecParams.png.injEq,
    JSNumber.int.injEq, and_true]
  omega

/-- C8 witness: quality 80 yields level 1, quality 1 yields level 9,
quality 100 yields level 0, always with adaptive filtering and palette
quantization on. -/
theorem c8_witness :
    pngParams (JSNumber.int 80) = CodecParams.png (JSNumber.int 1) true true
    ∧ pngParams (JSNumber.int 1) = CodecParams.png (JSNumber.int 9) true true
    ∧ pngParams (JSNumber.int 100) = CodecParams.png (JSNumber.int 0) true true :=
  ⟨(c8_png_codec_params 80 (by decide) (by decide)).trans (by decide),
   (c8_png_codec_params 1 (by decide) (by decide)).trans (by decide),
   (c8_png_codec_params 100 (by decide) (by decide)).trans (by decide)⟩

/-- C2: at the failing input — aspect `false`, width 100, height 50 — the
resize options handed to the codec carry no fit mode at all (in
particular not the stretch fit `fill` that exact-box resizing requires),
so the codec's own default fit governs; for `"scale"` and `"crop"` the
code does request `inside` and `cover` with the entropy anchor. -/
theorem c2_aspect_false_sets_no_fit :
    resizePlan (JSVal.bool false) (some (JSNumber.int 100)) (some (JSNumber.int 50))
      = some ⟨some (JSNumber.int 100), some (JSNumber.int 50), none, none⟩
    ∧ (buildResizeOptions (JSVal.str "scale") (some (JSNumber.int 100))
        (some (JSNumber.int 50))).fit = some Fit.inside
    ∧ (buildResizeOptions (JSVal.str "crop") (some (JSNumber.int 100))
        (some (JSNumber.int 50))).fit = some Fit.cover
    ∧ (buildResizeOptions (JSVal.str "crop") (some (JSNumber.int 100))
        (some (JSNumber.int 50))).position = some Position.entropy := by
  decide

end ImgOptim
